import Mathlib

set_option autoImplicit false

/-!
Verification of the algebraic core of the safer-ts library: the optional-value
type (src/monads/Option.ts), the fallible-result type (src/monads/Result.ts),
the deferred-effect wrapper (src/monads/IO.ts) and the persistent keyed map
(src/datastructures/SafeMap.ts).  TypeScript tagged unions become Lean
inductives; the methods of each tagged union become functions on the inductive
with the source's names; a thrown `Error` becomes `Except.error` carrying the
thrown message string; the effectful nullary thunk `() => T` wrapped by the
deferred-effect type becomes an explicit world transformer `W → T × W`; and the
mutable JS `Map` objects underlying the keyed map become references into an
explicit heap, so that cloning, aliasing and in-place mutation are observable.
-/

/-- A JavaScript value whose non-nullish payloads have type `T`: it is `null`,
`undefined`, or a proper value `val v`.  This models TypeScript domains such as
`T | undefined | null` (the input of `intoOption`) and the result of
`Map.prototype.get`, which yields `undefined` when the key is absent. -/
inductive JSVal (T : Type) where
  | null
  | undef
  | val (v : T)
  deriving DecidableEq, Repr

namespace SaferTS

/-- Embeds the source tagged union `Option<T>` from src/monads/Option.ts:
`{ type: 'some', data: T } | { type: 'none' }`.  The tag is the constructor. -/
inductive Option (T : Type) where
  | Some (data : T)
  | None
  deriving DecidableEq, Repr

namespace Option

/-- Source method `isSome` (Option.ts line 98): tests the tag. -/
def isSome {T : Type} : Option T → Bool
  | Some _ => true
  | None => false

/-- Source method `isNone` (Option.ts line 101): tests the tag. -/
def isNone {T : Type} : Option T → Bool
  | Some _ => false
  | None => true

/-- Source method `map` (Option.ts line 104):
`isSome(this) ? Some(mapper(this.data)) : this`. -/
def map {T U : Type} (o : Option T) (mapper : T → U) : Option U :=
  match o with
  | Some d => Some (mapper d)
  | None => None

/-- Source method `andThen` (Option.ts line 107):
`isSome(this) ? chainer(this.data) : this`. -/
def andThen {T U : Type} (o : Option T) (chainer : T → Option U) : Option U :=
  match o with
  | Some d => chainer d
  | None => None

/-- Source method `orElse` (Option.ts line 110):
`isNone(this) ? chainer() : this`. -/
def orElse {T : Type} (o : Option T) (chainer : Unit → Option T) : Option T :=
  match o with
  | Some d => Some d
  | None => chainer ()

/-- Source method `unwrap` (Option.ts line 113): returns the data of a Some and
throws `new Error('Attempted to unwrap data from None!')` on a None.  The
thrown error is modelled as `Except.error` carrying the message string. -/
def unwrap {T : Type} : Option T → Except String T
  | Some d => Except.ok d
  | None => Except.error ("Attempted to unwrap data from None!")

end Option

/-- Embeds the source tagged union `Result<T, E>` from src/monads/Result.ts:
`{ type: 'ok', data: T } | { type: 'err', error: E }`. -/
inductive Result (T E : Type) where
  | Ok (data : T)
  | Err (error : E)
  deriving DecidableEq, Repr

namespace Result

/-- Source method `isOk` (Result.ts line 104). -/
def isOk {T E : Type} : Result T E → Bool
  | Ok _ => true
  | Err _ => false

/-- Source method `isErr` (Result.ts line 107). -/
def isErr {T E : Type} : Result T E → Bool
  | Ok _ => false
  | Err _ => true

/-- Source method `map` (Result.ts line 110):
`isOk(this) ? Ok(mapper(this.data)) : this`. -/
def map {T U E : Type} (r : Result T E) (mapper : T → U) : Result U E :=
  match r with
  | Ok d => Ok (mapper d)
  | Err e => Err e

/-- Source method `mapErr` (Result.ts line 113):
`isErr(this) ? Err(mapper(this.error)) : this`. -/
def mapErr {T E U : Type} (r : Result T E) (mapper : E → U) : Result T U :=
  match r with
  | Ok d => Ok d
  | Err e => Err (mapper e)

/-- Source method `andThen` (Result.ts line 116):
`isOk(this) ? chainer(this.data) : this`. -/
def andThen {T U E : Type} (r : Result T E) (chainer : T → Result U E) : Result U E :=
  match r with
  | Ok d => chainer d
  | Err e => Err e

/-- Source method `orElse` (Result.ts line 119):
`isErr(this) ? chainer(this.error) : this`. -/
def orElse {T E U : Type} (r : Result T E) (chainer : E → Result T U) : Result T U :=
  match r with
  | Ok d => Ok d
  | Err e => chainer e

/-- Source method `unwrap` (Result.ts line 122): returns the data of an Ok and
throws `new Error('Attempted to unwrap data of Err!')` on an Err. -/
def unwrap {T E : Type} : Result T E → Except String T
  | Ok d => Except.ok d
  | Err _ => Except.error ("Attempted to unwrap data of Err!")

/-- Source method `unwrapErr` (Result.ts line 127): returns the error of an Err
and throws `new Error('Attempted to unwrap error of Ok!')` on an Ok. -/
def unwrapErr {T E : Type} : Result T E → Except String E
  | Ok _ => Except.error ("Attempted to unwrap error of Ok!")
  | Err e => Except.ok e

end Result

/-- Source free function `intoOption` (Option.ts line 155):
`data === undefined || data === null ? None() : Some(data)`.  The nullish
checks are the two nullish constructors of `JSVal`. -/
def intoOption {T : Type} : JSVal T → Option T
  | JSVal.null => Option.None
  | JSVal.undef => Option.None
  | JSVal.val v => Option.Some v

/-- Embeds the source type `IO<T>` from monads/IO.ts.  The wrapped effectful
nullary thunk `() => T` becomes an explicit world transformer `W → T × W` over
an arbitrary external-state type `W`: invoking the thunk consumes a world and
yields the returned value together with the updated world.  Constructing an
`IOEff` (source `io`), and the bodies of `map` and `andThen`, take no world
argument and so perform no effect, exactly as the source bodies never call
`this._fn`; only `UNSAFE_run` applies the stored thunk to a world. -/
structure IOEff (W T : Type) where
  _fn : W → T × W

/-- Source free function `io` (IO.ts line 49): stores the thunk unevaluated. -/
def io {W T : Type} (fn : W → T × W) : IOEff W T :=
  ⟨fn⟩

namespace IOEff

/-- Source method `UNSAFE_run` (IO.ts line 51): `return this._fn()`. -/
def UNSAFE_run {W T : Type} (e : IOEff W T) (w : W) : T × W :=
  e._fn w

/-- Source method `map` (IO.ts line 54):
`io(() => mapper(this.UNSAFE_run()))`. -/
def map {W T U : Type} (e : IOEff W T) (mapper : T → U) : IOEff W U :=
  io (fun w =>
    let r := e.UNSAFE_run w
    (mapper r.1, r.2))

/-- Source method `andThen` (IO.ts line 57):
`io(() => chainer(this.UNSAFE_run()).UNSAFE_run())`. -/
def andThen {W T U : Type} (e : IOEff W T) (chainer : T → IOEff W U) : IOEff W U :=
  io (fun w =>
    let r := e.UNSAFE_run w
    (chainer r.1).UNSAFE_run r.2)

end IOEff

/-- Contents of one JS `Map` object (src/datastructures/SafeMap.ts wraps one
as its `_map` field): an insertion-ordered association list with unique keys.
A stored value is an arbitrary JS value, possibly nullish. -/
abbrev MapData (K V : Type) := List (K × JSVal V)

/-- JS `Map.prototype.get` on the contents: the stored value at the key, or
`undefined` when the key is absent (as in JS, absence and a stored
`undefined` are indistinguishable through `get`). -/
def jsMapGet {K V : Type} [DecidableEq K] : MapData K V → K → JSVal V
  | [], _ => JSVal.undef
  | (k', v) :: rest, k => if k' = k then v else jsMapGet rest k

/-- JS `Map.prototype.has` on the contents: key presence, regardless of the
stored value. -/
def jsMapHas {K V : Type} [DecidableEq K] : MapData K V → K → Bool
  | [], _ => false
  | (k', _) :: rest, k => if k' = k then true else jsMapHas rest k

/-- JS `Map.prototype.set` on the contents: updates the value in place for an
existing key (keeping the key's insertion position), otherwise appends the new
entry at the end. -/
def jsMapSet {K V : Type} [DecidableEq K] : MapData K V → K → JSVal V → MapData K V
  | [], k, v => [(k, v)]
  | (k', v') :: rest, k, v =>
      if k' = k then (k', v) :: rest else (k', v') :: jsMapSet rest k v

/-- JS `Map.prototype.delete` on the contents: removes the entry for the key
(keys are unique, so removing the first occurrence removes the key). -/
def jsMapDelete {K V : Type} [DecidableEq K] : MapData K V → K → MapData K V
  | [], _ => []
  | (k', v') :: rest, k => if k' = k then rest else (k', v') :: jsMapDelete rest k

/-- A reference to a JS `Map` object: an index into the heap below.  Object
identity (`new Map` allocates, mutation hits one object) is what the
persistent-versus-mutable distinction is about, so it is modelled explicitly. -/
abbrev MapRef := Nat

/-- The JS heap restricted to `Map` objects: position `r` holds the current
contents of the object referenced by `r`. -/
structure Heap (K V : Type) where
  maps : List (MapData K V)

/-- Dereferences a map object (reads its current contents). -/
def Heap.read {K V : Type} (h : Heap K V) (r : MapRef) : MapData K V :=
  h.maps.getD r []

/-- Allocates a fresh `Map` object with the given contents (`new Map(...)`)
and returns its reference. -/
def Heap.alloc {K V : Type} (h : Heap K V) (d : MapData K V) : MapRef × Heap K V :=
  (h.maps.length, ⟨h.maps ++ [d]⟩)

/-- Mutates the `Map` object at the reference in place, replacing its
contents. -/
def Heap.write {K V : Type} (h : Heap K V) (r : MapRef) (d : MapData K V) : Heap K V :=
  ⟨h.maps.set r d⟩

/-- Source free function `createSafeMap` (SafeMap.ts line 86): its `_map`
field is `new Map(existingMap ?? [])`, i.e. a freshly allocated object seeded
with a copy of the supplied map's current entries, or empty when the argument
is nullish (in particular when the optional parameter is omitted).  The spec
calls this constructor `createPersistentMap`.  A `SafeMap` value is identified
with the reference to its `_map` object. -/
def createSafeMap {K V : Type} (h : Heap K V) (existingMap : JSVal MapRef) :
    MapRef × Heap K V :=
  h.alloc (match existingMap with
    | JSVal.val r => h.read r
    | _ => [])

namespace SafeMap

/-- Source method `get` (SafeMap.ts line 88):
`intoOption(this._map.get(key))`. -/
def get {K V : Type} [DecidableEq K] (h : Heap K V) (m : MapRef) (key : K) :
    Option V :=
  intoOption (jsMapGet (h.read m) key)

/-- Source method `has` (SafeMap.ts line 91): `this._map.has(key)`. -/
def has {K V : Type} [DecidableEq K] (h : Heap K V) (m : MapRef) (key : K) : Bool :=
  jsMapHas (h.read m) key

/-- Source method `set` (SafeMap.ts line 94): clones the underlying map into a
fresh object (`new Map(this._map)`), sets the key on the clone, and wraps the
clone in a new SafeMap via `createSafeMap` (which copies once more). -/
def set {K V : Type} [DecidableEq K] (h : Heap K V) (m : MapRef) (key : K)
    (value : JSVal V) : MapRef × Heap K V :=
  let c := h.alloc (h.read m)
  let h2 := (c.2).write c.1 (jsMapSet ((c.2).read c.1) key value)
  createSafeMap h2 (JSVal.val c.1)

/-- Source method `clear` (SafeMap.ts line 100): `return createSafeMap()`,
i.e. a fresh empty SafeMap; the receiver is not touched. -/
def clear {K V : Type} (h : Heap K V) (_m : MapRef) : MapRef × Heap K V :=
  createSafeMap h JSVal.undef

/-- Source method `delete` (SafeMap.ts line 103): clones the underlying map,
deletes the key on the clone, and wraps the clone via `createSafeMap`. -/
def delete {K V : Type} [DecidableEq K] (h : Heap K V) (m : MapRef) (key : K) :
    MapRef × Heap K V :=
  let c := h.alloc (h.read m)
  let h2 := (c.2).write c.1 (jsMapDelete ((c.2).read c.1) key)
  createSafeMap h2 (JSVal.val c.1)

/-- Source method `entries` (SafeMap.ts line 109): the underlying map's
entries in insertion order (the iterator is modelled as the list it yields). -/
def entries {K V : Type} (h : Heap K V) (m : MapRef) : MapData K V :=
  h.read m

/-- Source method `keys` (SafeMap.ts line 112). -/
def keys {K V : Type} (h : Heap K V) (m : MapRef) : List K :=
  (h.read m).map Prod.fst

/-- Source method `values` (SafeMap.ts line 115). -/
def values {K V : Type} (h : Heap K V) (m : MapRef) : List (JSVal V) :=
  (h.read m).map Prod.snd

end SafeMap

/-- Modelled from the spec: the mutable map variant and its constructor
`createMutableMap` are not among the sources under src/, which contain only
the persistent `createSafeMap`; per spec sections 3 and 4.4 the mutable
variant has the same creation interface (optionally seeded from an existing
association, omitted seed yields an empty map) and identical read
operations, differing only in mutation discipline. -/
def createMutableMap {K V : Type} (h : Heap K V) (existingMap : JSVal MapRef) :
    MapRef × Heap K V :=
  h.alloc (match existingMap with
    | JSVal.val r => h.read r
    | _ => [])

namespace MutableMap

/-- Modelled from the spec: mutable `set` "mutates the receiver in place and
returns the same reference, enabling a fluent chain" (spec section 4.4). -/
def set {K V : Type} [DecidableEq K] (h : Heap K V) (m : MapRef) (key : K)
    (value : JSVal V) : MapRef × Heap K V :=
  (m, h.write m (jsMapSet (h.read m) key value))

/-- Modelled from the spec: mutable `delete`, in place, same reference. -/
def delete {K V : Type} [DecidableEq K] (h : Heap K V) (m : MapRef) (key : K) :
    MapRef × Heap K V :=
  (m, h.write m (jsMapDelete (h.read m) key))

/-- Modelled from the spec: mutable `clear`, in place, same reference. -/
def clear {K V : Type} (h : Heap K V) (m : MapRef) : MapRef × Heap K V :=
  (m, h.write m [])

end MutableMap

/-- C4: Option.unwrap on a None raises the fault for unwrapping a None,
Result.unwrap on an Err raises the fault for unwrapping an Err, and
Result.unwrapErr on an Ok raises the fault for unwrapping an Ok; the three
faults are pairwise distinct (realised in the source as three distinct thrown
error messages, which the spec labels UnwrapOnNone, UnwrapOnErr and UnwrapOnOk);
and each operation returns the contained value without raising when called on
the matching variant. -/
theorem escape_hatch_faults :
    (∀ (T : Type), (Option.None : Option T).unwrap =
      Except.error ("Attempted to unwrap data from None!")) ∧
    (∀ (T : Type) (v : T), (Option.Some v).unwrap = Except.ok v) ∧
    (∀ (T E : Type) (e : E), (Result.Err e : Result T E).unwrap =
      Except.error ("Attempted to unwrap data of Err!")) ∧
    (∀ (T E : Type) (v : T), (Result.Ok v : Result T E).unwrap = Except.ok v) ∧
    (∀ (T E : Type) (v : T), (Result.Ok v : Result T E).unwrapErr =
      Except.error ("Attempted to unwrap error of Ok!")) ∧
    (∀ (T E : Type) (e : E), (Result.Err e : Result T E).unwrapErr = Except.ok e) ∧
    (("Attempted to unwrap data from None!" : String) ≠
      "Attempted to unwrap data of Err!") ∧
    (("Attempted to unwrap data from None!" : String) ≠
      "Attempted to unwrap error of Ok!") ∧
    (("Attempted to unwrap data of Err!" : String) ≠
      "Attempted to unwrap error of Ok!") :=
  ⟨fun _ => rfl, fun _ _ => rfl, fun _ _ _ => rfl, fun _ _ _ => rfl,
   fun _ _ _ => rfl, fun _ _ _ => rfl, by decide, by decide, by decide⟩

/-- C5: mapping the identity function over any Option or Result value returns
the value itself, and mapping f then g equals mapping the composition
x => g (f x), for both Option.map and Result.map. -/
theorem functor_laws :
    (∀ (T : Type) (m : Option T), m.map id = m) ∧
    (∀ (T U X : Type) (m : Option T) (f : T → U) (g : U → X),
      (m.map f).map g = m.map (fun x => g (f x))) ∧
    (∀ (T E : Type) (m : Result T E), m.map id = m) ∧
    (∀ (T U X E : Type) (m : Result T E) (f : T → U) (g : U → X),
      (m.map f).map g = m.map (fun x => g (f x))) :=
  ⟨fun _ m => by cases m <;> rfl,
   fun _ _ _ m _ _ => by cases m <;> rfl,
   fun _ _ m => by cases m <;> rfl,
   fun _ _ _ _ m _ _ => by cases m <;> rfl⟩

/-- C6: andThen is associative for Option and for Result:
m.andThen(f).andThen(g) equals m.andThen(x => f(x).andThen(g)). -/
theorem monad_associativity :
    (∀ (T U X : Type) (m : Option T) (f : T → Option U) (g : U → Option X),
      (m.andThen f).andThen g = m.andThen (fun x => (f x).andThen g)) ∧
    (∀ (T U X E : Type) (m : Result T E) (f : T → Result U E) (g : U → Result X E),
      (m.andThen f).andThen g = m.andThen (fun x => (f x).andThen g)) :=
  ⟨fun _ _ _ m _ _ => by cases m <;> rfl,
   fun _ _ _ _ m _ _ => by cases m <;> rfl⟩

/-- C8: intoOption returns None exactly on the nullish inputs null and
undefined, and returns Some wrapping the input on every proper value,
including the falsy values 0, the empty string and false. -/
theorem intoOption_nullish :
    (∀ (T : Type) (x : JSVal T),
      intoOption x = Option.None ↔ (x = JSVal.null ∨ x = JSVal.undef)) ∧
    (∀ (T : Type) (v : T), intoOption (JSVal.val v) = Option.Some v) ∧
    intoOption (JSVal.val (0 : Int)) = Option.Some 0 ∧
    intoOption (JSVal.val ("" : String)) = Option.Some "" ∧
    intoOption (JSVal.val false) = Option.Some false :=
  ⟨fun _ x => by cases x <;> simp [intoOption],
   fun _ _ => rfl, rfl, rfl, rfl⟩

/-- C2: constructing io(fn) stores the thunk without invoking it, and each
UNSAFE_run call invokes exactly the stored thunk afresh on the current world,
with no memoization.  On the spec's counter scenario (world = the counter n,
thunk increments n and returns it): from the initial world 0 the first run
returns 1 leaving the counter at 1, and a second run from the resulting world
returns 2.  A mapped value built from io(fn) likewise defers fn entirely to
run time: running it applies fn to the world supplied at that run. -/
theorem deferred_effect_laziness :
    (∀ (W T : Type) (fn : W → T × W), (io fn)._fn = fn) ∧
    (∀ (W T : Type) (fn : W → T × W) (w : W), (io fn).UNSAFE_run w = fn w) ∧
    ((io (fun n => (n + 1, n + 1)) : IOEff Nat Nat).UNSAFE_run 0 = (1, 1) ∧
     (io (fun n => (n + 1, n + 1)) : IOEff Nat Nat).UNSAFE_run
       ((io (fun n => (n + 1, n + 1)) : IOEff Nat Nat).UNSAFE_run 0).2 = (2, 2)) ∧
    (∀ (W T U : Type) (fn : W → T × W) (f : T → U) (w : W),
      ((io fn).map f).UNSAFE_run w = (f (fn w).1, (fn w).2)) :=
  ⟨fun _ _ _ => rfl, fun _ _ _ _ => rfl, ⟨rfl, rfl⟩, fun _ _ _ _ _ _ => rfl⟩

/-- C7: running a composed deferred effect executes the constituent effects
left to right in construction order: running e.andThen(k) first applies e's
thunk to the incoming world, then applies the continuation's thunk to the
world e produced.  On the spec's example, io(() => 1).andThen(x => io(() =>
x + 1)) returns 2 when run, and with a log-valued world the two effects append
their marks in construction order; before the outer run nothing executes,
since andThen merely wraps a new thunk (its underlying function is applied to
no world until run). -/
theorem deferred_effect_composition_order :
    (∀ (W T U : Type) (e : IOEff W T) (k : T → IOEff W U) (w : W),
      (e.andThen k).UNSAFE_run w =
        (k (e.UNSAFE_run w).1).UNSAFE_run (e.UNSAFE_run w).2) ∧
    (∀ (W : Type) (w : W),
      (((io (fun w0 => (1, w0))).andThen
        (fun x => io (fun w0 => (x + 1, w0))) : IOEff W Nat).UNSAFE_run w).1 = 2) ∧
    (((io (fun log => (1, log ++ [1]))).andThen
      (fun x => io (fun log => (x + 1, log ++ [2]))) : IOEff (List Nat) Nat).UNSAFE_run []
        = (2, [1, 2])) :=
  ⟨fun _ _ _ _ _ _ => rfl, fun _ _ => rfl, rfl⟩

theorem list_getD_append_self {α : Type} (l : List α) (a d : α) :
    (l ++ [a]).getD l.length d = a := by
  induction l with
  | nil => rfl
  | cons x xs ih => simp [ih]

theorem list_getD_append_lt {α : Type} (l t : List α) (r : Nat) (d : α)
    (h : r < l.length) : (l ++ t).getD r d = l.getD r d := by
  induction l generalizing r with
  | nil => exact absurd h (by simp)
  | cons x xs ih =>
    cases r with
    | zero => rfl
    | succ n => simpa using ih n (by simpa using h)

theorem list_getD_append_append_lt {α : Type} (l : List α) (a b d : α) (r : Nat)
    (h : r < l.length) : ((l ++ [a]) ++ [b]).getD r d = l.getD r d := by
  rw [list_getD_append_lt (l ++ [a]) [b] r d (by simp; omega),
    list_getD_append_lt l [a] r d h]

theorem list_set_append_self {α : Type} (l : List α) (a b : α) :
    (l ++ [a]).set l.length b = l ++ [b] := by
  induction l with
  | nil => rfl
  | cons x xs ih => simp [ih]

theorem list_getD_set_self {α : Type} (l : List α) (r : Nat) (b d : α)
    (h : r < l.length) : (l.set r b).getD r d = b := by
  induction l generalizing r with
  | nil => exact absurd h (by simp)
  | cons x xs ih =>
    cases r with
    | zero => rfl
    | succ n => simpa using ih n (by simpa using h)

theorem list_getD_set_ne {α : Type} (l : List α) (r r2 : Nat) (b d : α)
    (h : r ≠ r2) : (l.set r b).getD r2 d = l.getD r2 d := by
  induction l generalizing r r2 with
  | nil => rfl
  | cons x xs ih =>
    cases r with
    | zero =>
      cases r2 with
      | zero => exact absurd rfl h
      | succ n => simp
    | succ m =>
      cases r2 with
      | zero => simp
      | succ n => simpa using ih m n (fun e => h (congrArg Nat.succ e))

theorem Heap.read_write_self {K V : Type} (h : Heap K V) (r : MapRef)
    (d : MapData K V) (hr : r < h.maps.length) : Heap.read (h.write r d) r = d :=
  list_getD_set_self _ _ _ _ hr

theorem Heap.read_write_ne {K V : Type} (h : Heap K V) (r r2 : MapRef)
    (d : MapData K V) (hne : r ≠ r2) : Heap.read (h.write r d) r2 = h.read r2 :=
  list_getD_set_ne _ _ _ _ _ hne

theorem Heap.length_write {K V : Type} (h : Heap K V) (r : MapRef)
    (d : MapData K V) : (h.write r d).maps.length = h.maps.length := by
  simp [Heap.write]

theorem jsMapGet_jsMapSet_self {K V : Type} [DecidableEq K] (m : MapData K V)
    (k : K) (v : JSVal V) : jsMapGet (jsMapSet m k v) k = v := by
  induction m with
  | nil => simp [jsMapSet, jsMapGet]
  | cons p rest ih =>
    obtain ⟨k', v'⟩ := p
    by_cases hp : k' = k
    · simp [jsMapSet, jsMapGet, hp]
    · simp [jsMapSet, jsMapGet, hp, ih]

theorem jsMapHas_jsMapSet_self {K V : Type} [DecidableEq K] (m : MapData K V)
    (k : K) (v : JSVal V) : jsMapHas (jsMapSet m k v) k = true := by
  induction m with
  | nil => simp [jsMapSet, jsMapHas]
  | cons p rest ih =>
    obtain ⟨k', v'⟩ := p
    by_cases hp : k' = k
    · simp [jsMapSet, jsMapHas, hp]
    · simp [jsMapSet, jsMapHas, hp, ih]

theorem jsMapHas_jsMapSet_preserve {K V : Type} [DecidableEq K] (m : MapData K V)
    (k k0 : K) (v : JSVal V) (hk : jsMapHas m k0 = true) :
    jsMapHas (jsMapSet m k v) k0 = true := by
  induction m with
  | nil => simp [jsMapHas] at hk
  | cons p rest ih =>
    obtain ⟨k', v'⟩ := p
    simp only [jsMapHas] at hk
    by_cases hp : k' = k
    · simp only [jsMapSet, if_pos hp, jsMapHas]
      by_cases h0 : k' = k0
      · rw [if_pos h0]
      · rw [if_neg h0] at hk ⊢
        exact hk
    · simp only [jsMapSet, if_neg hp, jsMapHas]
      by_cases h0 : k' = k0
      · rw [if_pos h0]
      · rw [if_neg h0] at hk ⊢
        exact ih hk

theorem SafeMap.set_spec {K V : Type} [DecidableEq K] (h : Heap K V)
    (m : MapRef) (k : K) (v : JSVal V) :
    SafeMap.set h m k v =
      ((h.maps ++ [jsMapSet (h.read m) k v]).length,
       ⟨(h.maps ++ [jsMapSet (h.read m) k v]) ++ [jsMapSet (h.read m) k v]⟩) := by
  simp only [SafeMap.set, createSafeMap, Heap.alloc, Heap.read, Heap.write,
    list_getD_append_self, list_set_append_self]

theorem SafeMap.delete_spec {K V : Type} [DecidableEq K] (h : Heap K V)
    (m : MapRef) (k : K) :
    SafeMap.delete h m k =
      ((h.maps ++ [jsMapDelete (h.read m) k]).length,
       ⟨(h.maps ++ [jsMapDelete (h.read m) k]) ++ [jsMapDelete (h.read m) k]⟩) := by
  simp only [SafeMap.delete, createSafeMap, Heap.alloc, Heap.read, Heap.write,
    list_getD_append_self, list_set_append_self]

theorem SafeMap.clear_spec {K V : Type} (h : Heap K V) (m : MapRef) :
    SafeMap.clear h m = (h.maps.length, ⟨h.maps ++ [[]]⟩) :=
  rfl

theorem createSafeMap_val_spec {K V : Type} (h : Heap K V) (rs : MapRef) :
    createSafeMap h (JSVal.val rs) = (h.maps.length, ⟨h.maps ++ [h.read rs]⟩) :=
  rfl

theorem createSafeMap_undef_spec {K V : Type} (h : Heap K V) :
    createSafeMap h JSVal.undef = (h.maps.length, ⟨h.maps ++ [[]]⟩) :=
  rfl

/-- C1: on the persistent map, `set` returns a new instance (a reference
distinct from the receiver) on which `get` of the written key yields Some of
the written value, while the receiver's own `get` and `has` results at every
key are unchanged by the call; `delete` and `clear` likewise return new
instances and leave the receiver's `get`/`has` results unchanged. -/
theorem persistent_map_isolation {K V : Type} [DecidableEq K]
    (h : Heap K V) (m1 : MapRef) (k : K) (v : V) (hm1 : m1 < h.maps.length) :
    (SafeMap.set h m1 k (JSVal.val v)).1 ≠ m1 ∧
    SafeMap.get (SafeMap.set h m1 k (JSVal.val v)).2
      (SafeMap.set h m1 k (JSVal.val v)).1 k = Option.Some v ∧
    (∀ k0 : K,
      SafeMap.get (SafeMap.set h m1 k (JSVal.val v)).2 m1 k0 = SafeMap.get h m1 k0 ∧
      SafeMap.has (SafeMap.set h m1 k (JSVal.val v)).2 m1 k0 = SafeMap.has h m1 k0) ∧
    (SafeMap.delete h m1 k).1 ≠ m1 ∧
    (∀ k0 : K,
      SafeMap.get (SafeMap.delete h m1 k).2 m1 k0 = SafeMap.get h m1 k0 ∧
      SafeMap.has (SafeMap.delete h m1 k).2 m1 k0 = SafeMap.has h m1 k0) ∧
    (SafeMap.clear h m1).1 ≠ m1 ∧
    (∀ k0 : K,
      SafeMap.get (SafeMap.clear h m1).2 m1 k0 = SafeMap.get h m1 k0 ∧
      SafeMap.has (SafeMap.clear h m1).2 m1 k0 = SafeMap.has h m1 k0) := by
  refine ⟨?_, ?_, ?_, ?_, ?_, ?_, ?_⟩
  · rw [SafeMap.set_spec]
    show (h.maps ++ [jsMapSet (h.read m1) k (JSVal.val v)]).length ≠ m1
    exact Nat.ne_of_gt (by simpa using Nat.lt_succ_of_lt hm1)
  · have hd : Heap.read (SafeMap.set h m1 k (JSVal.val v)).2
        (SafeMap.set h m1 k (JSVal.val v)).1 = jsMapSet (h.read m1) k (JSVal.val v) := by
      rw [SafeMap.set_spec]
      exact list_getD_append_self _ _ _
    simp only [SafeMap.get, hd, jsMapGet_jsMapSet_self, intoOption]
  · have hr : Heap.read (SafeMap.set h m1 k (JSVal.val v)).2 m1 = h.read m1 := by
      rw [SafeMap.set_spec]
      exact list_getD_append_append_lt _ _ _ _ _ hm1
    exact fun k0 => ⟨by simp only [SafeMap.get, hr], by simp only [SafeMap.has, hr]⟩
  · rw [SafeMap.delete_spec]
    show (h.maps ++ [jsMapDelete (h.read m1) k]).length ≠ m1
    exact Nat.ne_of_gt (by simpa using Nat.lt_succ_of_lt hm1)
  · have hr : Heap.read (SafeMap.delete h m1 k).2 m1 = h.read m1 := by
      rw [SafeMap.delete_spec]
      exact list_getD_append_append_lt _ _ _ _ _ hm1
    exact fun k0 => ⟨by simp only [SafeMap.get, hr], by simp only [SafeMap.has, hr]⟩
  · rw [SafeMap.clear_spec]
    show h.maps.length ≠ m1
    exact Nat.ne_of_gt hm1
  · have hr : Heap.read (SafeMap.clear h m1).2 m1 = h.read m1 := by
      rw [SafeMap.clear_spec]
      exact list_getD_append_lt _ _ _ _ hm1
    exact fun k0 => ⟨by simp only [SafeMap.get, hr], by simp only [SafeMap.has, hr]⟩

/-- Witness for C1: the spec's scenario.  On the heap holding only the empty
map created by createSafeMap() (reference 0), has "a" is false; after
m2 = m1.set("a", 1), m2.get("a") is Some 1 while m1.has("a") is still false. -/
theorem persistent_map_isolation_witness :
    SafeMap.has (⟨[[]]⟩ : Heap String Int) 0 ("a") = false ∧
    SafeMap.get (SafeMap.set (⟨[[]]⟩ : Heap String Int) 0 ("a") (JSVal.val 1)).2
      (SafeMap.set (⟨[[]]⟩ : Heap String Int) 0 ("a") (JSVal.val 1)).1 ("a")
      = Option.Some 1 ∧
    SafeMap.has (SafeMap.set (⟨[[]]⟩ : Heap String Int) 0 ("a") (JSVal.val 1)).2
      0 ("a") = false :=
  ⟨rfl,
   (persistent_map_isolation (⟨[[]]⟩ : Heap String Int) 0 ("a") 1 (by decide)).2.1,
   Eq.trans
     ((persistent_map_isolation (⟨[[]]⟩ : Heap String Int) 0 ("a") 1
        (by decide)).2.2.1 ("a")).2
     rfl⟩

/-- C3: on the mutable map variant, set, delete and clear each return the very
same reference as the receiver, mutating it in place; chaining
m.set(k,v).set(k2,v2) therefore returns m's own reference, and afterwards m
has both written keys. -/
theorem mutable_map_chaining {K V : Type} [DecidableEq K]
    (h : Heap K V) (m : MapRef) (k k2 : K) (v v2 : JSVal V)
    (hm : m < h.maps.length) :
    (MutableMap.set h m k v).1 = m ∧
    (MutableMap.delete h m k).1 = m ∧
    (MutableMap.clear h m).1 = m ∧
    (MutableMap.set (MutableMap.set h m k v).2
      (MutableMap.set h m k v).1 k2 v2).1 = m ∧
    SafeMap.has (MutableMap.set (MutableMap.set h m k v).2
      (MutableMap.set h m k v).1 k2 v2).2 m k = true ∧
    SafeMap.has (MutableMap.set (MutableMap.set h m k v).2
      (MutableMap.set h m k v).1 k2 v2).2 m k2 = true := by
  have ha : Heap.read (h.write m (jsMapSet (h.read m) k v)) m
      = jsMapSet (h.read m) k v :=
    Heap.read_write_self _ _ _ hm
  have hm2 : m < (h.write m (jsMapSet (h.read m) k v)).maps.length := by
    rw [Heap.length_write]
    exact hm
  have h2 : Heap.read (MutableMap.set (MutableMap.set h m k v).2
      (MutableMap.set h m k v).1 k2 v2).2 m
      = jsMapSet (jsMapSet (h.read m) k v) k2 v2 := by
    show Heap.read ((h.write m (jsMapSet (h.read m) k v)).write m
      (jsMapSet (Heap.read (h.write m (jsMapSet (h.read m) k v)) m) k2 v2)) m = _
    rw [ha]
    exact Heap.read_write_self _ _ _ hm2
  refine ⟨rfl, rfl, rfl, rfl, ?_, ?_⟩
  · show jsMapHas (Heap.read (MutableMap.set (MutableMap.set h m k v).2
      (MutableMap.set h m k v).1 k2 v2).2 m) k = true
    rw [h2]
    exact jsMapHas_jsMapSet_preserve _ _ _ _ (jsMapHas_jsMapSet_self _ _ _)
  · show jsMapHas (Heap.read (MutableMap.set (MutableMap.set h m k v).2
      (MutableMap.set h m k v).1 k2 v2).2 m) k2 = true
    rw [h2]
    exact jsMapHas_jsMapSet_self _ _ _

/-- Witness for C3: the spec's scenario.  For m = createMutableMap() (the map
at reference 0 of a one-object heap), m.set("a",1).set("b",2) returns m's own
reference, and afterwards m.has("a") and m.has("b") both hold. -/
theorem mutable_map_chaining_witness :
    (MutableMap.set (MutableMap.set (⟨[[]]⟩ : Heap String Int) 0 ("a")
      (JSVal.val 1)).2
      (MutableMap.set (⟨[[]]⟩ : Heap String Int) 0 ("a") (JSVal.val 1)).1
      ("b") (JSVal.val 2)).1 = 0 ∧
    SafeMap.has (MutableMap.set (MutableMap.set (⟨[[]]⟩ : Heap String Int) 0 ("a")
      (JSVal.val 1)).2
      (MutableMap.set (⟨[[]]⟩ : Heap String Int) 0 ("a") (JSVal.val 1)).1
      ("b") (JSVal.val 2)).2 0 ("a") = true ∧
    SafeMap.has (MutableMap.set (MutableMap.set (⟨[[]]⟩ : Heap String Int) 0 ("a")
      (JSVal.val 1)).2
      (MutableMap.set (⟨[[]]⟩ : Heap String Int) 0 ("a") (JSVal.val 1)).1
      ("b") (JSVal.val 2)).2 0 ("b") = true :=
  ⟨(mutable_map_chaining (⟨[[]]⟩ : Heap String Int) 0 ("a") ("b")
      (JSVal.val 1) (JSVal.val 2) (by decide)).2.2.2.1,
   (mutable_map_chaining (⟨[[]]⟩ : Heap String Int) 0 ("a") ("b")
      (JSVal.val 1) (JSVal.val 2) (by decide)).2.2.2.2.1,
   (mutable_map_chaining (⟨[[]]⟩ : Heap String Int) 0 ("a") ("b")
      (JSVal.val 1) (JSVal.val 2) (by decide)).2.2.2.2.2⟩

/-- C9: when the underlying association of a persistent map holds the value
null or undefined at a present key, has returns true while get returns None;
get always equals intoOption of the underlying Map.get result, so get never
exposes a nullish stored value as a Some, even though a Some containing null
is directly constructible as an Option value. -/
theorem get_has_nullish_divergence {K V : Type} [DecidableEq K]
    (h : Heap K V) (m : MapRef) (k : K)
    (hpresent : jsMapHas (h.read m) k = true)
    (hnullish : jsMapGet (h.read m) k = JSVal.null ∨
      jsMapGet (h.read m) k = JSVal.undef) :
    SafeMap.has h m k = true ∧
    SafeMap.get h m k = Option.None ∧
    (∀ k0 : K, SafeMap.get h m k0 = intoOption (jsMapGet (h.read m) k0)) ∧
    (Option.Some (JSVal.null : JSVal V) ≠ Option.None) := by
  refine ⟨hpresent, ?_, fun k0 => rfl, fun hx => Option.noConfusion hx⟩
  show intoOption (jsMapGet (h.read m) k) = Option.None
  rcases hnullish with h1 | h1 <;> rw [h1] <;> rfl

/-- Witness for C9: a map whose association stores null at key "a": has is
true and get is None there. -/
theorem get_has_nullish_divergence_witness :
    SafeMap.has
      (⟨[[(("a" : String), (JSVal.null : JSVal Int))]]⟩ : Heap String Int)
      0 ("a") = true ∧
    SafeMap.get
      (⟨[[(("a" : String), (JSVal.null : JSVal Int))]]⟩ : Heap String Int)
      0 ("a") = Option.None :=
  ⟨(get_has_nullish_divergence
      (⟨[[(("a" : String), (JSVal.null : JSVal Int))]]⟩ : Heap String Int)
      0 ("a") (by decide) (Or.inl (by decide))).1,
   (get_has_nullish_divergence
      (⟨[[(("a" : String), (JSVal.null : JSVal Int))]]⟩ : Heap String Int)
      0 ("a") (by decide) (Or.inl (by decide))).2.1⟩

/-- C10: createSafeMap copies the supplied seed map at construction time: the
constructed map is a distinct object whose entries equal the seed's entries at
construction, and any later in-place mutation of the seed object leaves the
constructed map's get, has and entries results unaffected; an omitted (or
nullish) seed yields a map on which has is false for every key. -/
theorem createSafeMap_isolation {K V : Type} [DecidableEq K]
    (h : Heap K V) (rs : MapRef) (hrs : rs < h.maps.length) :
    (createSafeMap h (JSVal.val rs)).1 ≠ rs ∧
    SafeMap.entries (createSafeMap h (JSVal.val rs)).2
      (createSafeMap h (JSVal.val rs)).1 = h.read rs ∧
    (∀ (d : MapData K V) (k0 : K),
      SafeMap.get (Heap.write (createSafeMap h (JSVal.val rs)).2 rs d)
        (createSafeMap h (JSVal.val rs)).1 k0
        = SafeMap.get (createSafeMap h (JSVal.val rs)).2
            (createSafeMap h (JSVal.val rs)).1 k0 ∧
      SafeMap.has (Heap.write (createSafeMap h (JSVal.val rs)).2 rs d)
        (createSafeMap h (JSVal.val rs)).1 k0
        = SafeMap.has (createSafeMap h (JSVal.val rs)).2
            (createSafeMap h (JSVal.val rs)).1 k0) ∧
    (∀ d : MapData K V,
      SafeMap.entries (Heap.write (createSafeMap h (JSVal.val rs)).2 rs d)
        (createSafeMap h (JSVal.val rs)).1
        = SafeMap.entries (createSafeMap h (JSVal.val rs)).2
            (createSafeMap h (JSVal.val rs)).1) ∧
    (∀ k0 : K, SafeMap.has (createSafeMap h JSVal.undef).2
      (createSafeMap h JSVal.undef).1 k0 = false) := by
  have hne : rs ≠ (createSafeMap h (JSVal.val rs)).1 := by
    rw [createSafeMap_val_spec]
    show rs ≠ h.maps.length
    exact Nat.ne_of_lt hrs
  have hrw : ∀ d : MapData K V,
      Heap.read (Heap.write (createSafeMap h (JSVal.val rs)).2 rs d)
        (createSafeMap h (JSVal.val rs)).1
        = Heap.read (createSafeMap h (JSVal.val rs)).2
            (createSafeMap h (JSVal.val rs)).1 :=
    fun d => Heap.read_write_ne _ _ _ _ hne
  refine ⟨fun he => hne he.symm, ?_, ?_, ?_, ?_⟩
  · show Heap.read (createSafeMap h (JSVal.val rs)).2
      (createSafeMap h (JSVal.val rs)).1 = h.read rs
    rw [createSafeMap_val_spec]
    exact list_getD_append_self _ _ _
  · exact fun d k0 =>
      ⟨by simp only [SafeMap.get, hrw], by simp only [SafeMap.has, hrw]⟩
  · exact fun d => hrw d
  · intro k0
    show jsMapHas ((h.maps ++ [([] : MapData K V)]).getD h.maps.length []) k0
      = false
    simp only [list_getD_append_self, jsMapHas]

/-- Witness for C10: on a heap holding one seed map with entry ("a", 1), the
SafeMap constructed from the seed is a distinct object, and overwriting the
seed's contents with the empty association leaves the constructed map's
get at "a" equal to Some 1. -/
theorem createSafeMap_isolation_witness :
    (createSafeMap
      (⟨[[(("a" : String), JSVal.val (1 : Int))]]⟩ : Heap String Int)
      (JSVal.val 0)).1 ≠ 0 ∧
    SafeMap.get (Heap.write (createSafeMap
        (⟨[[(("a" : String), JSVal.val (1 : Int))]]⟩ : Heap String Int)
        (JSVal.val 0)).2 0 [])
      (createSafeMap
        (⟨[[(("a" : String), JSVal.val (1 : Int))]]⟩ : Heap String Int)
        (JSVal.val 0)).1 ("a") = Option.Some 1 :=
  ⟨(createSafeMap_isolation
      (⟨[[(("a" : String), JSVal.val (1 : Int))]]⟩ : Heap String Int)
      0 (by decide)).1,
   Eq.trans
     (((createSafeMap_isolation
        (⟨[[(("a" : String), JSVal.val (1 : Int))]]⟩ : Heap String Int)
        0 (by decide)).2.2.1 [] ("a")).1)
     (by decide)⟩

end SaferTS
